import Mathlib

/-!
Shallow embedding of src/net/uring/io_uring.c: a minimal shim that submits
UDP recvmsg requests through an io_uring submission/completion queue pair and
blocks for their completion.

Modelling choices:
- Pointers are modelled as natural numbers, with 0 standing for NULL.
- The ring is a state record: free submission-queue slots, the list of
  submission entries flushed to the kernel, the pending completion queue
  (head = the entry the next successful wait returns), and a counter of
  completions released back to the kernel via io_uring_cqe_seen.
- io_uring_wait_cqe is driven by an oracle: a list of its return codes, one
  per wait attempt. A return of 0 means the head of the completion queue is
  delivered; a negative return is a wait failure (for example -EINTR). An
  exhausted oracle, or a 0 return against an empty completion queue, models a
  wait that never returns, expressed as the result none.
- In the C source, obtaining no submission-queue slot is not checked and the
  prep calls then write through a null pointer (undefined behavior). The
  model records that event in the nullSlotWrite flag instead of crashing.
-/

namespace IoUring

/-- The errno code for an interrupted system call. -/
def EINTR : Int := 4

/-- Size in bytes of struct sockaddr_in, the value the C source stores into
msg_namelen. -/
def sizeof_sockaddr_in : Nat := 16

/-- Model of struct sockaddr_in. The port and address fields hold the stored
16 and 32 bit values in network byte order. -/
structure sockaddr_in where
  sin_family : Nat
  sin_port : Nat
  sin_addr : Nat
  deriving DecidableEq

/-- Model of struct iovec: a base pointer and a length. -/
structure iovec where
  iov_base : Nat
  iov_len : Int
  deriving DecidableEq

/-- Model of struct msghdr. Fields not written by the submission path
(msg_control, msg_controllen, msg_flags) are carried to state frame facts. -/
structure msghdr where
  msg_name : Nat
  msg_namelen : Nat
  msg_iov : Nat
  msg_iovlen : Nat
  msg_control : Nat
  msg_controllen : Nat
  msg_flags : Nat
  deriving DecidableEq

/-- The operation a submission-queue entry has been prepared as. -/
inductive SqeOp where
  | unprepped
  | recvmsg (sock : Int) (mhdrPtr : Nat) (flags : Nat)
  | nop
  deriving DecidableEq

/-- Model of struct io_uring_sqe: the prepared operation and the user_data
correlation handle (0 until io_uring_sqe_set_data is called). -/
structure io_uring_sqe where
  op : SqeOp
  user_data : Nat
  deriving DecidableEq

/-- Model of struct io_uring_cqe: a signed result and the echoed user_data. -/
structure io_uring_cqe where
  res : Int
  user_data : Nat
  deriving DecidableEq

/-- Model of struct io_uring: the ring state visible to this shim. -/
structure io_uring where
  sqAvail : Nat
  submitted : List io_uring_sqe
  cq : List io_uring_cqe
  cqSeenCount : Nat
  deriving DecidableEq

/-- io_uring_get_sqe: yields a zero-initialized submission slot, or none when
the submission queue is exhausted. -/
def io_uring_get_sqe (r : io_uring) : Option io_uring_sqe :=
  if 0 < r.sqAvail then some { op := SqeOp.unprepped, user_data := 0 } else none

/-- io_uring_prep_recvmsg: marks the slot as a recvmsg operation. -/
def io_uring_prep_recvmsg (sqe : io_uring_sqe) (sock : Int) (mhdrPtr : Nat)
    (flags : Nat) : io_uring_sqe :=
  { sqe with op := SqeOp.recvmsg sock mhdrPtr flags }

/-- io_uring_prep_nop: marks the slot as a no-operation. -/
def io_uring_prep_nop (sqe : io_uring_sqe) : io_uring_sqe :=
  { sqe with op := SqeOp.nop }

/-- io_uring_sqe_set_data: stores the correlation handle into the slot. -/
def io_uring_sqe_set_data (sqe : io_uring_sqe) (d : Nat) : io_uring_sqe :=
  { sqe with user_data := d }

/-- io_uring_submit: flushes the prepared entries to the kernel, consuming the
corresponding submission-queue slots. -/
def io_uring_submit (r : io_uring) (pending : List io_uring_sqe) : io_uring :=
  { r with
    sqAvail := r.sqAvail - pending.length,
    submitted := r.submitted ++ pending }

/-- io_uring_cqe_get_data: extracts the correlation handle of a completion. -/
def io_uring_cqe_get_data (cqe : io_uring_cqe) : Nat :=
  cqe.user_data

/-- io_uring_cqe_seen: releases the completion back to the kernel, advancing
the completion queue and counting the release. -/
def io_uring_cqe_seen (r : io_uring) (_cqe : io_uring_cqe) : io_uring :=
  { r with cq := r.cq.tail, cqSeenCount := r.cqSeenCount + 1 }

/-- The io_uring contract for completions: the kernel finishes a submitted
entry with some result and echoes its user_data unchanged into the
completion. -/
def kernel_complete (sqe : io_uring_sqe) (res : Int) : io_uring_cqe :=
  { res := res, user_data := sqe.user_data }

/-- receive_into, from src/net/uring/io_uring.c lines 23 to 49. The first
argument is the oracle of io_uring_wait_cqe return codes, consumed one per
wait attempt. A -EINTR return loops back to the wait (goto again); another
negative return is handed back to the caller; a 0 return delivers the head of
the completion queue, which is decoded exactly as the C source does: a
negative completion result is returned as is (without io_uring_cqe_seen), a
null correlation handle is reported as -1 (without io_uring_cqe_seen), and
otherwise the byte count is returned after io_uring_cqe_seen. -/
def receive_into : List Int → io_uring → Option (Int × io_uring)
  | [], _ => none
  | ret :: rest, r =>
    if ret = -EINTR then receive_into rest r
    else if ret < 0 then some (ret, r)
    else
      match r.cq with
      | [] => none
      | cqe :: _ =>
        if cqe.res < 0 then some (cqe.res, r)
        else if io_uring_cqe_get_data cqe = 0 then some (-1, r)
        else some (cqe.res, io_uring_cqe_seen r cqe)

/-- ip, from src/net/uring/io_uring.c lines 51 to 53. -/
def ntohl (x : Nat) : Nat :=
  (x % 256) * 16777216 + (x / 256 % 256) * 65536 +
    (x / 65536 % 256) * 256 + (x / 16777216 % 256)

/-- Network to host conversion of a stored 16 bit value (byte swap on the
little-endian hosts this code targets). -/
def ntohs (x : Nat) : Nat :=
  (x % 256) * 256 + (x / 256 % 256)

/-- ip: decodes the sender address field to host byte order. -/
def ip (sa : sockaddr_in) : Nat :=
  ntohl sa.sin_addr

/-- port: decodes the sender port field to host byte order. -/
def port (sa : sockaddr_in) : Nat :=
  ntohs sa.sin_port

/-- The heap state a submission call touches: the caller-owned descriptor
parts (iovec, msghdr, sender slot, receive buffer contents) and the ring. -/
structure IoState where
  iov : iovec
  mhdr : msghdr
  sender : sockaddr_in
  buf : List Nat
  ring : io_uring
  deriving DecidableEq

/-- Result of a submission call: the updated heap state, the C return value,
and whether the unchecked null-slot branch was exercised. -/
structure SubmitOutcome where
  st : IoState
  retval : Int
  nullSlotWrite : Bool
  deriving DecidableEq

/-- submit_recvmsg_request, from src/net/uring/io_uring.c lines 61 to 77.
The pointer arguments name the caller objects being wired together; the
writes through iov and mhdr happen before the slot is obtained, exactly as in
the source. When io_uring_get_sqe yields no slot the source preps through a
null pointer; the model records that as nullSlotWrite and flushes nothing. -/
def submit_recvmsg_request (sock : Int) (st : IoState)
    (iovPtr senderPtr mhdrPtr bufPtr : Nat) (buflen : Int) : SubmitOutcome :=
  let iov1 := { st.iov with iov_base := bufPtr, iov_len := buflen }
  let mhdr1 := { st.mhdr with
    msg_iov := iovPtr, msg_iovlen := 1,
    msg_name := senderPtr, msg_namelen := sizeof_sockaddr_in }
  let st1 : IoState := { st with iov := iov1, mhdr := mhdr1 }
  match io_uring_get_sqe st1.ring with
  | some sqe =>
    let sqe1 := io_uring_prep_recvmsg sqe sock mhdrPtr 0
    let sqe2 := io_uring_sqe_set_data sqe1 mhdrPtr
    { st := { st1 with ring := io_uring_submit st1.ring [sqe2] },
      retval := 0, nullSlotWrite := false }
  | none =>
    { st := { st1 with ring := io_uring_submit st1.ring [] },
      retval := 0, nullSlotWrite := true }

/-- submit_nop_request, from src/net/uring/io_uring.c lines 79 to 83. No
correlation handle is attached, so the slot keeps user_data = 0. The flag in
the second component records the unchecked null-slot branch. -/
def submit_nop_request (r : io_uring) : io_uring × Bool :=
  match io_uring_get_sqe r with
  | some sqe => (io_uring_submit r [io_uring_prep_nop sqe], false)
  | none => (io_uring_submit r [], true)

/-- Builds a ring state from its four components. -/
def mkRing (avail : Nat) (subm : List io_uring_sqe) (cq0 : List io_uring_cqe)
    (seenCnt : Nat) : io_uring :=
  { sqAvail := avail, submitted := subm, cq := cq0, cqSeenCount := seenCnt }

/-- Builds a heap state from its components. -/
def mkState (iov0 : iovec) (mhdr0 : msghdr) (sender0 : sockaddr_in)
    (buf0 : List Nat) (r : io_uring) : IoState :=
  { iov := iov0, mhdr := mhdr0, sender := sender0, buf := buf0, ring := r }

/-- A ring whose next completion failed with code -5. -/
def demoNegRing : io_uring := mkRing 0 [] [{ res := -5, user_data := 1 }] 0

/-- A ring whose next completion failed with code -1. -/
def demoFailRing : io_uring := mkRing 0 [] [{ res := -1, user_data := 7 }] 0

/-- A ring whose next completion is a nop completion: null handle, result 0. -/
def demoNopRing : io_uring := mkRing 0 [] [{ res := 0, user_data := 0 }] 0

/-- A ring whose next completion is a successful 7 byte receive. -/
def demoSuccessRing : io_uring := mkRing 0 [] [{ res := 7, user_data := 3 }] 0

/-- A zeroed iovec. -/
def demoIov : iovec := { iov_base := 0, iov_len := 0 }

/-- A zeroed msghdr. -/
def demoMhdr : msghdr :=
  { msg_name := 0, msg_namelen := 0, msg_iov := 0, msg_iovlen := 0,
    msg_control := 0, msg_controllen := 0, msg_flags := 0 }

/-- An empty sender slot (AF_INET family). -/
def demoAddr : sockaddr_in := { sin_family := 2, sin_port := 0, sin_addr := 0 }

/-- A heap state whose ring has no free submission slot. -/
def demoFullState : IoState := mkState demoIov demoMhdr demoAddr [] (mkRing 0 [] [] 0)

/-- Claim C1 (code bug witness): the spec requires every dequeued completion to
be released via io_uring_cqe_seen exactly once in every decode branch, but on
the negative-result branch receive_into returns the code with the ring
unchanged: the completion is still queued and the seen counter is still zero.
The same happens on the null-handle branch. -/
theorem seen_skipped_on_error_branch :
    receive_into [0] demoNegRing = some (-5, demoNegRing) ∧
    demoNegRing.cqSeenCount = 0 ∧ demoNegRing.cq.length = 1 ∧
    receive_into [0] demoNopRing = some (-1, demoNopRing) ∧
    demoNopRing.cqSeenCount = 0 ∧ demoNopRing.cq.length = 1 := by
  refine ⟨rfl, rfl, rfl, rfl, rfl, rfl⟩

/-- Claim C2 (counterexample): the no-payload completion is not distinct from
every numeric error code: a completion-level failure with code -1 and a
null-handle nop completion produce the same caller-visible result -1 from
receive_into, so the two cases cannot be told apart. -/
theorem nop_conflated_with_error_code :
    (receive_into [0] demoFailRing).map Prod.fst = some (-1) ∧
    (receive_into [0] demoNopRing).map Prod.fst = some (-1) := by
  exact ⟨rfl, rfl⟩

/-- Claim C2 (amended): a completion carrying the null correlation handle is
reported as the constant -1, which is negative and therefore never a byte
count; however -1 coincides with the numeric completion error code -1, so that
particular failure is not distinguishable from the no-payload condition. -/
theorem nop_reported_as_minus_one :
    ∀ (rest : List Int) (r : io_uring) (cqe : io_uring_cqe) (tl : List io_uring_cqe),
      r.cq = cqe :: tl → 0 ≤ cqe.res → cqe.user_data = 0 →
      receive_into (0 :: rest) r = some (-1, r) ∧ (-1 : Int) < 0 := by
  intro rest r cqe tl hcq hres hud
  refine ⟨?_, by norm_num⟩
  simp [receive_into, hcq, io_uring_cqe_get_data, hud, not_lt.mpr hres, EINTR]

/-- Witness for nop_reported_as_minus_one at a concrete nop completion. -/
theorem nop_reported_as_minus_one_witness :
    receive_into [0] demoNopRing = some (-1, demoNopRing) ∧ (-1 : Int) < 0 :=
  nop_reported_as_minus_one [] demoNopRing { res := 0, user_data := 0 } []
    rfl (by decide) rfl

/-- Claim C3: a wait attempt failing with -EINTR never surfaces to the caller:
receive_into is insensitive to the leading block of interrupted waits (each is
transparently retried), and a run of wait attempts consisting only of
interruptions yields no caller-visible result at all. -/
theorem eintr_retried_transparently :
    (∀ (rets : List Int) (r : io_uring),
        receive_into rets r =
          receive_into (rets.dropWhile (fun ret => decide (ret = -EINTR))) r) ∧
    (∀ (n : Nat) (r : io_uring),
        receive_into (List.replicate n (-EINTR)) r = none) := by
  constructor
  · intro rets
    induction rets with
    | nil => intro r; rfl
    | cons ret rest ih =>
      intro r
      by_cases h : ret = -EINTR
      · simpa [receive_into, h, List.dropWhile] using ih r
      · simp [receive_into, h, List.dropWhile]
  · intro n
    induction n with
    | zero => intro r; rfl
    | succ m ih =>
      intro r
      simpa [receive_into, List.replicate] using ih r

/-- Claim C4 (counterexample): with no submission slot available the null-slot
branch is taken and no explicit error is surfaced: submit_recvmsg_request
still returns 0, and submit_nop_request likewise records the null-slot write. -/
theorem null_slot_branch_taken :
    (submit_recvmsg_request 3 demoFullState 10 11 12 13 64).nullSlotWrite = true ∧
    (submit_recvmsg_request 3 demoFullState 10 11 12 13 64).retval = 0 ∧
    (submit_nop_request (mkRing 0 [] [] 0)).2 = true := by
  exact ⟨rfl, rfl, rfl⟩

/-- Claim C4 (amended): whenever io_uring_get_sqe yields no slot (no free
submission-queue entry), both submission operations take the branch that
populates the null slot, undefined behavior in the C source, and surface no
error: submit_recvmsg_request still returns 0. -/
theorem full_ring_populates_null_slot :
    ∀ (sock buflen : Int) (iov0 : iovec) (mhdr0 : msghdr) (sender0 : sockaddr_in)
      (buf0 : List Nat) (subm : List io_uring_sqe) (cq0 : List io_uring_cqe)
      (seenCnt iovPtr senderPtr mhdrPtr bufPtr : Nat),
      (submit_recvmsg_request sock
          (mkState iov0 mhdr0 sender0 buf0 (mkRing 0 subm cq0 seenCnt))
          iovPtr senderPtr mhdrPtr bufPtr buflen).nullSlotWrite = true ∧
      (submit_recvmsg_request sock
          (mkState iov0 mhdr0 sender0 buf0 (mkRing 0 subm cq0 seenCnt))
          iovPtr senderPtr mhdrPtr bufPtr buflen).retval = 0 ∧
      (submit_nop_request (mkRing 0 subm cq0 seenCnt)).2 = true := by
  intro sock buflen iov0 mhdr0 sender0 buf0 subm cq0 seenCnt iovPtr senderPtr mhdrPtr bufPtr
  refine ⟨?_, ?_, ?_⟩ <;>
    simp [submit_recvmsg_request, submit_nop_request, io_uring_get_sqe, mkRing, mkState]

/-- Claim C5: every value receive_into hands to the caller is either the
non-negative byte count of the dequeued completion (whose handle is then not
null) or a negative error code; a negative code is the completion result
itself, or a wait failure code passed through unchanged (it occurs among the
wait returns), or the constant -1 of the no-payload case. -/
theorem result_is_count_or_preserved_error :
    ∀ (rets : List Int) (r : io_uring) (v : Int) (r2 : io_uring),
      receive_into rets r = some (v, r2) →
      (0 ≤ v ∧ ∃ cqe tl, r.cq = cqe :: tl ∧ v = cqe.res ∧ cqe.user_data ≠ 0) ∨
      (v < 0 ∧ ((∃ cqe tl, r.cq = cqe :: tl ∧ v = cqe.res) ∨ v ∈ rets ∨ v = -1)) := by
  intro rets
  induction rets with
  | nil => intro r v r2 h; simp [receive_into] at h
  | cons ret rest ih =>
    intro r v r2 h
    by_cases h1 : ret = -EINTR
    · rw [receive_into, if_pos h1] at h
      rcases ih r v r2 h with h2 | ⟨hneg, h3 | h3 | h3⟩
      · exact Or.inl h2
      · exact Or.inr ⟨hneg, Or.inl h3⟩
      · exact Or.inr ⟨hneg, Or.inr (Or.inl (List.mem_cons_of_mem _ h3))⟩
      · exact Or.inr ⟨hneg, Or.inr (Or.inr h3)⟩
    · by_cases h2 : ret < 0
      · rw [receive_into, if_neg h1, if_pos h2] at h
        obtain ⟨hv, _⟩ := Prod.mk.injEq .. ▸ Option.some.injEq .. ▸ h
        exact Or.inr ⟨hv ▸ h2, Or.inr (Or.inl (hv ▸ List.mem_cons_self ret rest))⟩
      · rcases hcq : r.cq with _ | ⟨cqe, tl⟩
        · rw [receive_into, if_neg h1, if_neg h2, hcq] at h
          exact absurd h (by simp)
        · by_cases h3 : cqe.res < 0
          · rw [receive_into, if_neg h1, if_neg h2, hcq] at h
            dsimp only at h
            rw [if_pos h3] at h
            obtain ⟨hv, _⟩ := Prod.mk.injEq .. ▸ Option.some.injEq .. ▸ h
            exact Or.inr ⟨hv ▸ h3, Or.inl ⟨cqe, tl, rfl, hv.symm ▸ rfl⟩⟩
          · by_cases h4 : io_uring_cqe_get_data cqe = 0
            · rw [receive_into, if_neg h1, if_neg h2, hcq] at h
              dsimp only at h
              rw [if_neg h3, if_pos h4] at h
              obtain ⟨hv, _⟩ := Prod.mk.injEq .. ▸ Option.some.injEq .. ▸ h
              refine Or.inr ⟨hv ▸ (by norm_num), Or.inr (Or.inr hv.symm)⟩
            · rw [receive_into, if_neg h1, if_neg h2, hcq] at h
              dsimp only at h
              rw [if_neg h3, if_neg h4] at h
              obtain ⟨hv, _⟩ := Prod.mk.injEq .. ▸ Option.some.injEq .. ▸ h
              refine Or.inl ⟨hv ▸ (not_lt.mp h3), cqe, tl, rfl, hv.symm ▸ rfl, ?_⟩
              simpa [io_uring_cqe_get_data] using h4

/-- Witness for result_is_count_or_preserved_error: a successful 7 byte
receive at the head of the completion queue. -/
theorem result_is_count_or_preserved_error_witness :
    (0 ≤ (7 : Int) ∧ ∃ cqe tl, demoSuccessRing.cq = cqe :: tl ∧
        (7 : Int) = cqe.res ∧ cqe.user_data ≠ 0) ∨
    ((7 : Int) < 0 ∧ ((∃ cqe tl, demoSuccessRing.cq = cqe :: tl ∧ (7 : Int) = cqe.res) ∨
        (7 : Int) ∈ [(0 : Int)] ∨ (7 : Int) = -1)) :=
  result_is_count_or_preserved_error [0] demoSuccessRing 7
    (io_uring_cqe_seen demoSuccessRing { res := 7, user_data := 3 }) rfl

/-- Claim C6: with a submission slot available, submit_recvmsg_request wires
the buffer into a single-element scatter gather vector (iov_base = bufPtr,
iov_len = buflen, msg_iovlen = 1), wires the sender slot into the message
header with msg_namelen = sizeof_sockaddr_in, populates the slot as a recvmsg
operation on the socket with flags 0 and correlation handle mhdrPtr, and
flushes it to the kernel, consuming one submission-queue slot. -/
theorem recvmsg_submission_wiring :
    ∀ (sock buflen : Int) (iov0 : iovec) (mhdr0 : msghdr) (sender0 : sockaddr_in)
      (buf0 : List Nat) (n : Nat) (subm : List io_uring_sqe)
      (cq0 : List io_uring_cqe) (seenCnt iovPtr senderPtr mhdrPtr bufPtr : Nat),
      (submit_recvmsg_request sock
          (mkState iov0 mhdr0 sender0 buf0 (mkRing (n + 1) subm cq0 seenCnt))
          iovPtr senderPtr mhdrPtr bufPtr buflen).st.iov =
        { iov_base := bufPtr, iov_len := buflen } ∧
      (submit_recvmsg_request sock
          (mkState iov0 mhdr0 sender0 buf0 (mkRing (n + 1) subm cq0 seenCnt))
          iovPtr senderPtr mhdrPtr bufPtr buflen).st.mhdr =
        { mhdr0 with
          msg_iov := iovPtr, msg_iovlen := 1,
          msg_name := senderPtr, msg_namelen := sizeof_sockaddr_in } ∧
      (submit_recvmsg_request sock
          (mkState iov0 mhdr0 sender0 buf0 (mkRing (n + 1) subm cq0 seenCnt))
          iovPtr senderPtr mhdrPtr bufPtr buflen).st.ring.submitted =
        subm ++ [{ op := SqeOp.recvmsg sock mhdrPtr 0, user_data := mhdrPtr }] ∧
      (submit_recvmsg_request sock
          (mkState iov0 mhdr0 sender0 buf0 (mkRing (n + 1) subm cq0 seenCnt))
          iovPtr senderPtr mhdrPtr bufPtr buflen).st.ring.sqAvail = n := by
  intro sock buflen iov0 mhdr0 sender0 buf0 n subm cq0 seenCnt iovPtr senderPtr mhdrPtr bufPtr
  refine ⟨?_, ?_, ?_, ?_⟩ <;>
    simp [submit_recvmsg_request, io_uring_get_sqe, mkRing, mkState,
      io_uring_prep_recvmsg, io_uring_sqe_set_data, io_uring_submit]

/-- Claim C7: the correlation handle attached by the submission component (the
msghdr pointer passed to io_uring_sqe_set_data) is echoed unchanged by the
kernel completion contract and is exactly what io_uring_cqe_get_data, the
extraction used by receive_into, recovers from the matching completion, for
whatever result the kernel assigns. -/
theorem correlation_handle_roundtrip :
    ∀ (sock buflen : Int) (iov0 : iovec) (mhdr0 : msghdr) (sender0 : sockaddr_in)
      (buf0 : List Nat) (n : Nat) (subm : List io_uring_sqe)
      (cq0 : List io_uring_cqe) (seenCnt iovPtr senderPtr mhdrPtr bufPtr : Nat)
      (res : Int),
      ((submit_recvmsg_request sock
          (mkState iov0 mhdr0 sender0 buf0 (mkRing (n + 1) subm cq0 seenCnt))
          iovPtr senderPtr mhdrPtr bufPtr buflen).st.ring.submitted.getLast?).map
        (fun sqe => io_uring_cqe_get_data (kernel_complete sqe res)) = some mhdrPtr := by
  intro sock buflen iov0 mhdr0 sender0 buf0 n subm cq0 seenCnt iovPtr senderPtr mhdrPtr bufPtr res
  simp [submit_recvmsg_request, io_uring_get_sqe, mkRing, mkState,
    io_uring_prep_recvmsg, io_uring_sqe_set_data, io_uring_submit,
    kernel_complete, io_uring_cqe_get_data]

/-- Byte-level computation of ntohs on a two byte composition. -/
theorem ntohs_bytes (a b : Nat) (ha : a < 256) (hb : b < 256) :
    ntohs (a * 256 + b) = b * 256 + a := by
  unfold ntohs
  have h1 : (a * 256 + b) % 256 = b := by omega
  have h2 : (a * 256 + b) / 256 = a := by omega
  rw [h1, h2]
  omega

/-- Byte-level computation of ntohl on a four byte composition. -/
theorem ntohl_bytes (a b c d : Nat) (ha : a < 256) (hb : b < 256)
    (hc : c < 256) (hd : d < 256) :
    ntohl (a * 16777216 + b * 65536 + c * 256 + d) =
      d * 16777216 + c * 65536 + b * 256 + a := by
  unfold ntohl
  have h1 : (a * 16777216 + b * 65536 + c * 256 + d) % 256 = d := by omega
  have h2 : (a * 16777216 + b * 65536 + c * 256 + d) / 256 = a * 65536 + b * 256 + c := by
    omega
  have h3 : (a * 16777216 + b * 65536 + c * 256 + d) / 65536 = a * 256 + b := by omega
  have h4 : (a * 16777216 + b * 65536 + c * 256 + d) / 16777216 = a := by omega
  rw [h1, h2, h3, h4]
  omega

/-- Claim C8: the address decoders are pure field readers: ip is exactly ntohl
of the stored sin_addr and ignores every other field, port is exactly ntohs of
the stored sin_port and ignores every other field, both results are bounded 32
respectively 16 bit values, and ntohl and ntohs are self-inverse on stored
values, making them genuine byte-order conversions. Being plain functions of
the slot, neither can modify it and neither has an error result. -/
theorem addr_decoders_pure :
    ∀ (fam fam2 prt prt2 addr : Nat) (sa : sockaddr_in),
      ip { sin_family := fam, sin_port := prt, sin_addr := addr } = ntohl addr ∧
      port { sin_family := fam, sin_port := prt, sin_addr := addr } = ntohs prt ∧
      ip { sin_family := fam, sin_port := prt, sin_addr := addr } =
        ip { sin_family := fam2, sin_port := prt2, sin_addr := addr } ∧
      port { sin_family := fam, sin_port := prt, sin_addr := addr } =
        port { sin_family := fam2, sin_port := prt, sin_addr := addr } ∧
      ip sa < 4294967296 ∧
      port sa < 65536 ∧
      ntohl (ntohl addr) = addr % 4294967296 ∧
      ntohs (ntohs prt) = prt % 65536 := by
  intro fam fam2 prt prt2 addr sa
  refine ⟨rfl, rfl, rfl, rfl, ?_, ?_, ?_, ?_⟩
  · unfold ip ntohl; omega
  · unfold port ntohs; omega
  · have hx : ntohl addr =
        (addr % 256) * 16777216 + (addr / 256 % 256) * 65536 +
          (addr / 65536 % 256) * 256 + (addr / 16777216 % 256) := rfl
    rw [hx, ntohl_bytes (addr % 256) (addr / 256 % 256) (addr / 65536 % 256)
      (addr / 16777216 % 256) (by omega) (by omega) (by omega) (by omega)]
    have d1 : addr / 65536 = addr / 256 / 256 := by
      rw [Nat.div_div_eq_div_mul]
    have d2 : addr / 16777216 = addr / 65536 / 256 := by
      rw [Nat.div_div_eq_div_mul]
    have d3 : addr / 4294967296 = addr / 16777216 / 256 := by
      rw [Nat.div_div_eq_div_mul]
    omega
  · have hx : ntohs prt = (prt % 256) * 256 + (prt / 256 % 256) := rfl
    rw [hx, ntohs_bytes (prt % 256) (prt / 256 % 256) (by omega) (by omega)]
    have d1 : prt / 65536 = prt / 256 / 256 := by
      rw [Nat.div_div_eq_div_mul]
    omega

/-- Claim C9: submit_recvmsg_request returns 0 on every input, in particular
also when no submission-queue slot was available, so its return value carries
no information about the enqueue having succeeded. -/
theorem submit_always_returns_zero :
    ∀ (sock buflen : Int) (st : IoState) (iovPtr senderPtr mhdrPtr bufPtr : Nat),
      (submit_recvmsg_request sock st iovPtr senderPtr mhdrPtr bufPtr buflen).retval = 0 := by
  intro sock buflen st iovPtr senderPtr mhdrPtr bufPtr
  rcases h : io_uring_get_sqe st.ring with _ | sqe <;>
    simp [submit_recvmsg_request, h]

/-- Claim C10: the submission call writes only the iovec and the msghdr wiring
fields: the receive buffer contents, the sender-address slot, and the msghdr
fields outside the wiring (msg_control, msg_controllen, msg_flags) are
unchanged on every input. -/
theorem submit_preserves_buffer_and_sender :
    ∀ (sock buflen : Int) (st : IoState) (iovPtr senderPtr mhdrPtr bufPtr : Nat),
      (submit_recvmsg_request sock st iovPtr senderPtr mhdrPtr bufPtr buflen).st.buf = st.buf ∧
      (submit_recvmsg_request sock st iovPtr senderPtr mhdrPtr bufPtr buflen).st.sender = st.sender ∧
      (submit_recvmsg_request sock st iovPtr senderPtr mhdrPtr bufPtr buflen).st.mhdr.msg_control = st.mhdr.msg_control ∧
      (submit_recvmsg_request sock st iovPtr senderPtr mhdrPtr bufPtr buflen).st.mhdr.msg_controllen = st.mhdr.msg_controllen ∧
      (submit_recvmsg_request sock st iovPtr senderPtr mhdrPtr bufPtr buflen).st.mhdr.msg_flags = st.mhdr.msg_flags := by
  intro sock buflen st iovPtr senderPtr mhdrPtr bufPtr
  rcases h : io_uring_get_sqe st.ring with _ | sqe <;>
    refine ⟨?_, ?_, ?_, ?_, ?_⟩ <;>
    simp [submit_recvmsg_request, h]

end IoUring
